import Mathlib

/-!
Verification development for a real-time duplex voice-session client.

The embedding models, directly from the source (`src/App.jsx`):
* the inbound protocol state machine (`wsOnMessage` dispatch over typed events),
* the turn accumulator (`finalizeResponse`),
* the playback drain (`playNextAudioChunk`) with its base64/PCM16 frame codec,
* the capture encode paths (AudioWorklet gate and ScriptProcessor fallback),
* the recording stop handler (`handleRecordingStop`) and
* the `start_session` message construction.

Machine floats are modelled as exact rationals; JavaScript string truthiness
is modelled as inequality with the empty string.
-/

/-- Connection status values used by the client (`connectionStatus` state). -/
inductive ConnStatus
  | initializing
  | ready
  | connected
  | error
deriving DecidableEq

/-- A committed conversation turn (`newChatItem` in `finalizeResponse`). -/
structure ChatTurn where
  id : String
  userMessage : String
  assistantMessage : String
  timestamp : String
deriving DecidableEq

/-- The user-context object attached to `start_session`; each field is present
only when the corresponding trimmed profile field is non-empty. -/
structure UserContext where
  name : Option String
  role : Option String
  industry : Option String
  years_of_experience : Option String
deriving DecidableEq

/-- Outbound protocol messages (client → agent). -/
inductive OutMsg
  | startSession (context : Option UserContext)
  | audioChunk (audio_data : String)
  | endSession
deriving DecidableEq

/-- Client-side state touched by the websocket message handler: React state
(`connectionStatus`, flags, display strings, chat history) together with the
long-lived refs (current/accumulated transcript and response, audio queue). -/
structure ClientState where
  connectionStatus : ConnStatus
  isProcessing : Bool
  isAssistantSpeaking : Bool
  isAssistantSpeakingRef : Bool
  isAnalyzing : Bool
  transcript : String
  streamingResponse : String
  currentTranscript : String
  accumulatedTranscript : String
  currentResponse : String
  accumulatedResponse : String
  chatHistory : List ChatTurn
  latestResponse : Option (String × String)
  audioQueue : List String
  transcriptAnalysisResult : Option String
deriving DecidableEq

/-- State after component mount: session id allocated, status `ready`,
all buffers empty. -/
def initState : ClientState where
  connectionStatus := .ready
  isProcessing := false
  isAssistantSpeaking := false
  isAssistantSpeakingRef := false
  isAnalyzing := false
  transcript := ""
  streamingResponse := ""
  currentTranscript := ""
  accumulatedTranscript := ""
  currentResponse := ""
  accumulatedResponse := ""
  chatHistory := []
  latestResponse := none
  audioQueue := []
  transcriptAnalysisResult := none

/-- Inbound protocol events (agent → client), discriminated by `data.type`.
`playbackFinished` carries the identifier and timestamp that the client
generates for the committed turn (`uuidv4()` / `new Date().toISOString()`). -/
inductive InEvent
  | sessionStarted
  | agentReady
  | settingsApplied
  | speechStarted
  | transcript (text : String)
  | thinking
  | response (text : String)
  | playbackStarted
  | playbackFinished (id : String) (timestamp : String)
  | audioChunk (audio : String)
  | error (message : String)
  | transcriptAnalysis (analysis : String)
  | unknown
deriving DecidableEq

/-- One accumulation step: JavaScript
`if (acc) acc += ' ' + t; else acc = t;` (string truthiness = non-empty). -/
def accumStep (acc t : String) : String :=
  if acc = "" then t else acc ++ " " ++ t

/-- `finalizeResponse`: build a ChatTurn from the accumulated buffers (falling
back to the per-utterance cursors, JS `a || b`), append it to the chat history
when at least one message is non-empty, then clear all four text refs and both
display strings.  `id` and `ts` are the freshly generated turn id/timestamp. -/
def finalizeResponse (id ts : String) (s : ClientState) : ClientState :=
  let userMsg := if s.accumulatedTranscript = "" then s.currentTranscript
                 else s.accumulatedTranscript
  let assistantMsg := if s.accumulatedResponse = "" then s.currentResponse
                      else s.accumulatedResponse
  let s1 :=
    if userMsg = "" ∧ assistantMsg = "" then s
    else { s with
            chatHistory := s.chatHistory ++ [⟨id, userMsg, assistantMsg, ts⟩],
            latestResponse := some (userMsg, assistantMsg) }
  { s1 with
      isProcessing := false
      transcript := ""
      streamingResponse := ""
      currentTranscript := ""
      accumulatedTranscript := ""
      currentResponse := ""
      accumulatedResponse := "" }

/-- The websocket `onmessage` dispatch (`ws.onmessage` switch on `data.type`). -/
def wsOnMessage (s : ClientState) : InEvent → ClientState
  | .sessionStarted => s
  | .agentReady => s
  | .settingsApplied => s
  | .speechStarted => { s with isProcessing := true }
  | .transcript t =>
      let acc := accumStep s.accumulatedTranscript t
      { s with accumulatedTranscript := acc, currentTranscript := t,
               transcript := acc }
  | .thinking => { s with isProcessing := true }
  | .response t =>
      let acc := accumStep s.accumulatedResponse t
      { s with accumulatedResponse := acc, currentResponse := t,
               streamingResponse := acc }
  | .playbackStarted =>
      { s with isAssistantSpeaking := true, isAssistantSpeakingRef := true,
               isProcessing := false }
  | .playbackFinished id ts =>
      finalizeResponse id ts
        { s with isAssistantSpeaking := false, isAssistantSpeakingRef := false }
  | .audioChunk a => { s with audioQueue := s.audioQueue ++ [a] }
  | .error _ =>
      { s with isProcessing := false, isAnalyzing := false,
               connectionStatus := .error }
  | .transcriptAnalysis a =>
      { s with transcriptAnalysisResult := some a, isAnalyzing := false }
  | .unknown => s

/-- Process a list of inbound events in arrival order. -/
def runEvents (s : ClientState) (es : List InEvent) : ClientState :=
  es.foldl wsOnMessage s

/-- The spec's space-join of fragments: `F1 ++ " " ++ F2 ++ ... ++ " " ++ Fn`. -/
def joinSpace : List String → String
  | [] => ""
  | [t] => t
  | t :: ts => t ++ " " ++ joinSpace ts

/-! ### Frame codec: base64 and 16-bit PCM -/

/-- The base64 alphabet used by `btoa`/`atob`. -/
def b64Alphabet : List Char :=
  "ABCDEFGHIJKLMNOPQRSTUVWXYZabcdefghijklmnopqrstuvwxyz0123456789+/".toList

/-- Character of a 6-bit value. -/
def b64CharOf (n : Nat) : Char := b64Alphabet.getD n 'A'

/-- 6-bit value of a base64 character; `none` for characters outside the
alphabet. -/
def b64Index (c : Char) : Option Nat :=
  let i := b64Alphabet.indexOf c
  if i < 64 then some i else none

/-- Encode bytes three at a time into base64 characters, padding with
one or two trailing characters as `btoa` does. -/
def bytesToB64 : List Nat → List Char
  | [] => []
  | [b0] =>
      [b64CharOf (b0 / 4), b64CharOf (b0 % 4 * 16), '=', '=']
  | [b0, b1] =>
      [b64CharOf (b0 / 4), b64CharOf (b0 % 4 * 16 + b1 / 16),
       b64CharOf (b1 % 16 * 4), '=']
  | b0 :: b1 :: b2 :: rest =>
      b64CharOf (b0 / 4) :: b64CharOf (b0 % 4 * 16 + b1 / 16) ::
      b64CharOf (b1 % 16 * 4 + b2 / 64) :: b64CharOf (b2 % 64) ::
      bytesToB64 rest

/-- `arrayBufferToBase64` from the source: bytes to a base64 string
(`String.fromCharCode` accumulation followed by `btoa`). -/
def arrayBufferToBase64 (bytes : List Nat) : String :=
  String.mk (bytesToB64 bytes)

/-- ASCII whitespace stripped by forgiving-base64 (`atob`). -/
def isB64Whitespace (c : Char) : Bool :=
  c = ' ' || c = '\t' || c = '\n' || c = '\x0c' || c = '\r'

/-- Remove up to two trailing padding characters when the length is a
multiple of four. -/
def stripB64Padding (cs : List Char) : List Char :=
  if cs.length % 4 = 0 then
    match cs.reverse with
    | '=' :: '=' :: rest => rest.reverse
    | '=' :: rest => rest.reverse
    | _ => cs
  else cs

/-- Reassemble bytes from 6-bit groups; fails on a single leftover group. -/
def sextetsToBytes : List Nat → Option (List Nat)
  | [] => some []
  | [_] => none
  | [a, b] => some [a * 4 + b / 16]
  | [a, b, c] => some [a * 4 + b / 16, b % 16 * 16 + c / 4]
  | a :: b :: c :: d :: rest =>
      (sextetsToBytes rest).map (fun bs =>
        (a * 4 + b / 16) :: (b % 16 * 16 + c / 4) :: (c % 4 * 64 + d) :: bs)

/-- `atob`: forgiving-base64 decode to bytes; `none` models the exception
thrown on malformed input. -/
def atob (s : String) : Option (List Nat) :=
  let cs := stripB64Padding (s.toList.filter (fun c => !isB64Whitespace c))
  if cs.length % 4 = 1 then none
  else (cs.mapM b64Index).bind sextetsToBytes

/-- View an even-length byte list as little-endian signed 16-bit samples
(`new Int16Array(bytes.buffer)`); an odd byte count throws, modelled `none`. -/
def bytesToInt16 : List Nat → Option (List Int)
  | [] => some []
  | [_] => none
  | b0 :: b1 :: rest =>
      (bytesToInt16 rest).map (fun t =>
        (if 32768 ≤ b0 + 256 * b1 then (b0 + 256 * b1 : Int) - 65536
         else (b0 + 256 * b1 : Int)) :: t)

/-- Decode one inbound frame: base64 → bytes → Int16 → floats (`pcm/32768`).
`none` models any exception caught by the drain loop's try/catch. -/
def decodeFrame (b64 : String) : Option (List ℚ) :=
  (atob b64).bind fun bs =>
    (bytesToInt16 bs).map fun pcm => pcm.map (fun v => (v : ℚ) / 32768)

/-! ### Capture encode path -/

/-- Truncation toward zero, the numeric conversion JavaScript applies when a
fractional value is stored into an `Int16Array` element. -/
def ratTrunc (x : ℚ) : ℤ :=
  if 0 ≤ x then ⌊x⌋ else ⌈x⌉

/-- Wrap an integer to the signed 16-bit range (`ToInt16`). -/
def toInt16 (n : ℤ) : ℤ :=
  let m := n % 65536
  if 32768 ≤ m then m - 65536 else m

/-- The source's Float32 → Int16 conversion on the ScriptProcessor path:
`s = Math.max(-1, Math.min(1, x)); int16[i] = s < 0 ? s * 0x8000 : s * 0x7FFF`
(the store into the `Int16Array` truncates toward zero and wraps). -/
def jsFloatTo16 (x : ℚ) : ℤ :=
  let s := max (-1) (min 1 x)
  toInt16 (ratTrunc (if s < 0 then s * 32768 else s * 32767))

/-- The claim's conversion: `round(s < 0 ? s * 32768 : s * 32767)` clamped to
the signed 16-bit range, with JavaScript `Math.round x = ⌊x + 1/2⌋`. -/
def claimRoundFloatTo16 (x : ℚ) : ℤ :=
  max (-32768) (min 32767 ⌊(if x < 0 then x * 32768 else x * 32767) + 1/2⌋)

/-- The amended conversion: as the claim, but truncating toward zero instead
of rounding. -/
def claimTruncFloatTo16 (x : ℚ) : ℤ :=
  max (-32768) (min 32767 (ratTrunc (if x < 0 then x * 32768 else x * 32767)))

/-- Little-endian bytes of one signed 16-bit sample. -/
def int16ToBytes (v : Int) : List Nat :=
  let u := (v % 65536).toNat
  [u % 256, u / 256]

/-- Bytes of a whole Int16 buffer. -/
def int16ListToBytes (vs : List Int) : List Nat :=
  (vs.map int16ToBytes).flatten

/-- A message posted by the AudioWorklet processor to the main thread
(`event.data`): a type tag and the already-encoded Int16 byte buffer. -/
structure WorkletAudioEvent where
  isAudio : Bool
  buffer : List Nat
deriving DecidableEq

/-- The AudioWorklet-path handler `workletNode.port.onmessage`: a frame is
sent only when the event is audio, the websocket is open, and the
assistant-speaking ref is clear (the muting gate). -/
def workletOnMessage (wsOpen speakingRef : Bool) (e : WorkletAudioEvent) :
    List OutMsg :=
  if e.isAudio && wsOpen && !speakingRef then
    [OutMsg.audioChunk (arrayBufferToBase64 e.buffer)]
  else []

/-- The ScriptProcessor-fallback handler `processorNode.onaudioprocess`:
converts the float block to Int16 and sends whenever the websocket is open.
The speaking ref is in scope (second argument) but never consulted. -/
def onAudioProcess (wsOpen : Bool) (speakingRef : Bool) (input : List ℚ) :
    List OutMsg :=
  let _unusedMutingState := speakingRef
  if wsOpen then
    [OutMsg.audioChunk
      (arrayBufferToBase64 (int16ListToBytes (input.map jsFloatTo16)))]
  else []

/-- Messages produced by a sequence of worklet capture events. -/
def workletFramesSent (wsOpen speakingRef : Bool)
    (es : List WorkletAudioEvent) : List OutMsg :=
  (es.map (workletOnMessage wsOpen speakingRef)).flatten

/-- Messages produced by a sequence of ScriptProcessor capture blocks. -/
def scriptFramesSent (wsOpen speakingRef : Bool) (blocks : List (List ℚ)) :
    List OutMsg :=
  (blocks.map (onAudioProcess wsOpen speakingRef)).flatten

/-! ### Playback scheduler -/

/-- One scheduled playback buffer: the `source.start(startTime)` argument and
the buffer's duration (`samples / 24000`). -/
structure SchedFrame where
  startTime : ℚ
  duration : ℚ
deriving DecidableEq

/-- The drain loop of `playNextAudioChunk`: pop each queued base64 frame (the
queue element is paired with the device clock `currentTime` observed when the
frame is processed), decode it, schedule it at
`max(currentTime, nextPlayTime)`, and advance the cursor by the buffer's
duration.  A frame whose decode fails is skipped (try/catch).  Returns the
scheduled frames in order together with the final cursor. -/
def playNextAudioChunk (cursor : ℚ) :
    List (ℚ × String) → List SchedFrame × ℚ
  | [] => ([], cursor)
  | (now, b64) :: rest =>
    match decodeFrame b64 with
    | none => playNextAudioChunk cursor rest
    | some floats =>
        let st := max now cursor
        let d := (floats.length : ℚ) / 24000
        let out := playNextAudioChunk (st + d) rest
        (⟨st, d⟩ :: out.1, out.2)

/-- Frames scheduled by one drain run. -/
def drainFrames (cursor : ℚ) (q : List (ℚ × String)) : List SchedFrame :=
  (playNextAudioChunk cursor q).1

/-- Cursor value after one drain run. -/
def drainCursor (cursor : ℚ) (q : List (ℚ × String)) : ℚ :=
  (playNextAudioChunk cursor q).2

/-! ### Recording stop handler -/

/-- The capture-side resources and channel state seen by
`handleRecordingStop`: whether each ref currently holds a resource, whether
the websocket is open, and the recording/analyzing flags. -/
structure RecState where
  isRecording : Bool
  workletNode : Bool
  audioContext : Bool
  audioStream : Bool
  wsOpen : Bool
  isAnalyzing : Bool
deriving DecidableEq

/-- Observable effects of one `handleRecordingStop` call: which resources
were actually released this call, and the messages sent. -/
structure StopEffects where
  disconnectedNode : Bool
  closedContext : Bool
  stoppedTracks : Bool
  sent : List OutMsg
deriving DecidableEq

/-- `handleRecordingStop`: clear the recording flag, disconnect and null the
worklet/processor node, close and null the audio context, stop and null the
stream tracks (each only if still present), then — if the websocket is open —
set the analyzing flag and send `end_session`.  The websocket itself is not
closed. -/
def handleRecordingStop (s : RecState) : RecState × StopEffects :=
  let s1 : RecState :=
    { s with isRecording := false, workletNode := false,
             audioContext := false, audioStream := false }
  if s.wsOpen then
    ({ s1 with isAnalyzing := true },
     ⟨s.workletNode, s.audioContext, s.audioStream, [OutMsg.endSession]⟩)
  else
    (s1, ⟨s.workletNode, s.audioContext, s.audioStream, []⟩)

/-! ### start_session message -/

/-- Optional trimmed profile field: present exactly when the trimmed value is
non-empty (`if (field.trim()) userContext.key = field.trim()`). -/
def trimmedField (v : String) : Option String :=
  if v.trim = "" then none else some v.trim

/-- The `start_session` message built in `handleRecordingStart`: the
`context` property is the collected object when it has at least one key and
`undefined` otherwise — and `JSON.stringify` omits a key whose value is
`undefined`, so `none` models the `context` key being absent from the
serialized message. -/
def startSessionMessage (userName userRole userIndustry yearsOfExperience :
    String) : OutMsg :=
  let ctx : UserContext :=
    { name := trimmedField userName
      role := trimmedField userRole
      industry := trimmedField userIndustry
      years_of_experience := trimmedField yearsOfExperience }
  if ctx.name = none ∧ ctx.role = none ∧ ctx.industry = none ∧
      ctx.years_of_experience = none then
    OutMsg.startSession none
  else
    OutMsg.startSession (some ctx)

/-- Keys of the serialized JSON message (`JSON.stringify` drops properties
whose value is `undefined`). -/
def serializedKeys : OutMsg → List String
  | .startSession none => ["type"]
  | .startSession (some _) => ["type", "context"]
  | .audioChunk _ => ["type", "audio_data"]
  | .endSession => ["type"]

/-- The spec's description of the context: omitted entirely when no profile
field is set after trimming, otherwise exactly the non-empty trimmed fields. -/
def specStartSessionContext (userName userRole userIndustry
    yearsOfExperience : String) : Option UserContext :=
  if userName.trim = "" ∧ userRole.trim = "" ∧ userIndustry.trim = "" ∧
      yearsOfExperience.trim = "" then none
  else some
    { name := trimmedField userName
      role := trimmedField userRole
      industry := trimmedField userIndustry
      years_of_experience := trimmedField yearsOfExperience }

/-! ### Concrete states used to exercise the theorems -/

/-- A mid-turn state: one user utterance and one agent reply accumulated,
nothing committed yet. -/
def demoTurnState : ClientState :=
  { initState with
      accumulatedTranscript := "Hello"
      currentTranscript := "Hello"
      accumulatedResponse := "Hi there"
      currentResponse := "Hi there" }

/-- A live recording: every capture resource held and the channel open. -/
def demoRecState : RecState :=
  { isRecording := true, workletNode := true, audioContext := true,
    audioStream := true, wsOpen := true, isAnalyzing := false }

/-! ### Helper lemmas -/

/-- Appending to a non-empty string yields a non-empty string. -/
theorem strAppend_ne_empty_left (a b : String) (h : a ≠ "") : a ++ b ≠ "" := by
  intro hc
  apply h
  have hd := congrArg String.data hc
  simp only [String.data_append] at hd
  exact String.ext (List.append_eq_nil.mp hd).1

/-- The space-join of a list headed by a non-empty fragment is non-empty. -/
theorem joinSpace_ne_empty (t : String) (ts : List String) (h : t ≠ "") :
    joinSpace (t :: ts) ≠ "" := by
  cases ts with
  | nil => exact h
  | cons u us =>
      exact strAppend_ne_empty_left _ _ (strAppend_ne_empty_left _ _ h)

/-- Folding `accumStep` over fragments from a non-empty start equals the
space-join headed by the start. -/
theorem foldl_accumStep_ne (ts : List String) :
    ∀ a : String, a ≠ "" → ts.foldl accumStep a = joinSpace (a :: ts) := by
  induction ts with
  | nil => intro a _; rfl
  | cons t ts ih =>
      intro a ha
      have hne : a ++ " " ++ t ≠ "" :=
        strAppend_ne_empty_left _ _ (strAppend_ne_empty_left _ _ ha)
      have hstep : accumStep a t = a ++ " " ++ t := by simp [accumStep, ha]
      rw [List.foldl_cons, hstep, ih _ hne]
      cases ts with
      | nil => rfl
      | cons u us =>
          show a ++ " " ++ t ++ " " ++ joinSpace (u :: us) =
            a ++ " " ++ (t ++ " " ++ joinSpace (u :: us))
          simp [String.append_assoc]

/-- Transcript events accumulate by folding `accumStep`. -/
theorem accumT_after_transcripts (ts : List String) :
    ∀ s : ClientState,
      (runEvents s (ts.map InEvent.transcript)).accumulatedTranscript =
        ts.foldl accumStep s.accumulatedTranscript := by
  induction ts with
  | nil => intro _; rfl
  | cons t ts ih =>
      intro s
      have h := ih (wsOnMessage s (.transcript t))
      simp only [List.map_cons, runEvents, List.foldl_cons] at h ⊢
      exact h

/-- Transcript events leave the chat history and both response refs alone. -/
theorem frame_after_transcripts (ts : List String) :
    ∀ s : ClientState,
      (runEvents s (ts.map InEvent.transcript)).chatHistory = s.chatHistory ∧
      (runEvents s (ts.map InEvent.transcript)).accumulatedResponse =
        s.accumulatedResponse ∧
      (runEvents s (ts.map InEvent.transcript)).currentResponse =
        s.currentResponse := by
  induction ts with
  | nil => intro _; exact ⟨rfl, rfl, rfl⟩
  | cons t ts ih =>
      intro s
      have h := ih (wsOnMessage s (.transcript t))
      simp only [List.map_cons, runEvents, List.foldl_cons] at h ⊢
      exact h

/-- Response events accumulate by folding `accumStep`. -/
theorem accumR_after_responses (ts : List String) :
    ∀ s : ClientState,
      (runEvents s (ts.map InEvent.response)).accumulatedResponse =
        ts.foldl accumStep s.accumulatedResponse := by
  induction ts with
  | nil => intro _; rfl
  | cons t ts ih =>
      intro s
      have h := ih (wsOnMessage s (.response t))
      simp only [List.map_cons, runEvents, List.foldl_cons] at h ⊢
      exact h

/-- The chat history produced by `finalizeResponse`, in terms of the computed
user and assistant messages. -/
theorem finalize_chatHistory (s : ClientState) (id ts : String) :
    (finalizeResponse id ts s).chatHistory =
      if (if s.accumulatedTranscript = "" then s.currentTranscript
          else s.accumulatedTranscript) = "" ∧
         (if s.accumulatedResponse = "" then s.currentResponse
          else s.accumulatedResponse) = "" then
        s.chatHistory
      else
        s.chatHistory ++
          [⟨id,
            if s.accumulatedTranscript = "" then s.currentTranscript
            else s.accumulatedTranscript,
            if s.accumulatedResponse = "" then s.currentResponse
            else s.accumulatedResponse, ts⟩] := by
  simp only [finalizeResponse]
  repeat' split
  all_goals simp_all

/-- Wrapping to signed 16-bit is the identity on the 16-bit range. -/
theorem toInt16_eq_self (n : ℤ) (h1 : -32768 ≤ n) (h2 : n ≤ 32767) :
    toInt16 n = n := by
  simp only [toInt16]
  split <;> omega

/-- C9: an inbound `error{message}` event sets the connection status to
`error`, clears the processing and analyzing flags, and leaves the chat
history unchanged (no ChatTurn is committed). -/
theorem error_event_sets_error_and_commits_nothing
    (s : ClientState) (m : String) :
    (wsOnMessage s (.error m)).connectionStatus = ConnStatus.error ∧
    (wsOnMessage s (.error m)).isProcessing = false ∧
    (wsOnMessage s (.error m)).isAnalyzing = false ∧
    (wsOnMessage s (.error m)).chatHistory = s.chatHistory := by
  refine ⟨rfl, rfl, rfl, rfl⟩

/-- C2 counterexample: an empty first transcript fragment is dropped by the
truthiness check, so the accumulated buffer differs from the literal
space-join of the fragments. -/
theorem transcript_join_empty_fragment_counterexample :
    (runEvents initState
        [InEvent.transcript "", InEvent.transcript "help"]).accumulatedTranscript
      = "help" ∧
    joinSpace ["", "help"] = " help" ∧
    (runEvents initState
        [InEvent.transcript "", InEvent.transcript "help"]).accumulatedTranscript
      ≠ joinSpace ["", "help"] := by
  decide

/-- C2 (amended): provided the first fragment is non-empty, a sequence of
transcript events within one turn accumulates to the single-space join of the
fragments, the ChatTurn committed at playback_finished carries that join as
its userMessage, and the same law holds for response events. -/
theorem transcript_accumulation_spec (s : ClientState) (t : String)
    (ts : List String) (id time : String)
    (ht : t ≠ "") (hs : s.accumulatedTranscript = "") :
    (runEvents s ((t :: ts).map InEvent.transcript)).accumulatedTranscript =
      joinSpace (t :: ts) ∧
    (runEvents s ((t :: ts).map InEvent.transcript ++
        [InEvent.playbackFinished id time])).chatHistory =
      s.chatHistory ++
        [⟨id, joinSpace (t :: ts),
          if s.accumulatedResponse = "" then s.currentResponse
          else s.accumulatedResponse, time⟩] ∧
    (∀ (s2 : ClientState) (r : String) (rs : List String), r ≠ "" →
      s2.accumulatedResponse = "" →
      (runEvents s2 ((r :: rs).map InEvent.response)).accumulatedResponse =
        joinSpace (r :: rs)) := by
  have hstep0 : accumStep "" t = t := by simp [accumStep]
  have hacc : (runEvents s
      ((t :: ts).map InEvent.transcript)).accumulatedTranscript =
      joinSpace (t :: ts) := by
    rw [accumT_after_transcripts, hs, List.foldl_cons, hstep0,
      foldl_accumStep_ne ts t ht]
  refine ⟨hacc, ?_, ?_⟩
  · have hsplit : runEvents s ((t :: ts).map InEvent.transcript ++
        [InEvent.playbackFinished id time]) =
        wsOnMessage (runEvents s ((t :: ts).map InEvent.transcript))
          (.playbackFinished id time) := by
      simp [runEvents, List.foldl_append]
    rw [hsplit]
    obtain ⟨hch, haccR, hcurR⟩ := frame_after_transcripts (t :: ts) s
    show (finalizeResponse id time
      { runEvents s ((t :: ts).map InEvent.transcript) with
          isAssistantSpeaking := false,
          isAssistantSpeakingRef := false }).chatHistory = _
    rw [finalize_chatHistory]
    have hne := joinSpace_ne_empty t ts ht
    simp only [List.map_cons] at hacc hch haccR hcurR
    simp [hacc, hch, haccR, hcurR, hne]
  · intro s2 r rs hr hs2
    have hstep0r : accumStep "" r = r := by simp [accumStep]
    rw [accumR_after_responses, hs2, List.foldl_cons, hstep0r,
      foldl_accumStep_ne rs r hr]

/-- C2 witness: fragments I-need then help commit userMessage I-need-help. -/
theorem transcript_accumulation_spec_witness :
    (runEvents initState ((["I need", "help"]).map InEvent.transcript ++
        [InEvent.playbackFinished "turn-1" "T0"])).chatHistory =
      initState.chatHistory ++
        [⟨"turn-1", joinSpace ["I need", "help"],
          if initState.accumulatedResponse = "" then initState.currentResponse
          else initState.accumulatedResponse, "T0"⟩] :=
  (transcript_accumulation_spec initState "I need" ["help"] "turn-1" "T0"
    (by decide) rfl).2.1

/-- C3: finalizeResponse appends exactly one ChatTurn — built from the two
accumulators and the supplied id/timestamp — iff at least one accumulator is
non-empty (under the reachable-state invariant that an empty accumulator
implies an empty per-utterance cursor), and always clears both accumulators
and both cursors; previously committed turns are untouched. -/
theorem finalizeResponse_commit_spec (s : ClientState) (id ts : String)
    (hT : s.accumulatedTranscript = "" → s.currentTranscript = "")
    (hR : s.accumulatedResponse = "" → s.currentResponse = "") :
    ((s.accumulatedTranscript = "" ∧ s.accumulatedResponse = "") →
      (finalizeResponse id ts s).chatHistory = s.chatHistory) ∧
    (¬(s.accumulatedTranscript = "" ∧ s.accumulatedResponse = "") →
      (finalizeResponse id ts s).chatHistory =
        s.chatHistory ++
          [⟨id, s.accumulatedTranscript, s.accumulatedResponse, ts⟩]) ∧
    (finalizeResponse id ts s).accumulatedTranscript = "" ∧
    (finalizeResponse id ts s).currentTranscript = "" ∧
    (finalizeResponse id ts s).accumulatedResponse = "" ∧
    (finalizeResponse id ts s).currentResponse = "" := by
  refine ⟨?_, ?_, rfl, rfl, rfl, rfl⟩
  · rintro ⟨hA, hB⟩
    rw [finalize_chatHistory]
    simp [hA, hB, hT hA, hR hB]
  · intro hne
    rw [finalize_chatHistory]
    by_cases hA : s.accumulatedTranscript = "" <;>
      by_cases hB : s.accumulatedResponse = ""
    · exact absurd ⟨hA, hB⟩ hne
    · simp [hA, hB, hT hA]
    · simp [hA, hB, hR hB]
    · simp [hA, hB]

/-- C3 witness: committing a turn with both buffers filled appends it. -/
theorem finalizeResponse_commit_spec_witness :
    (finalizeResponse "turn-2" "T1" demoTurnState).chatHistory =
      demoTurnState.chatHistory ++
        [⟨"turn-2", demoTurnState.accumulatedTranscript,
          demoTurnState.accumulatedResponse, "T1"⟩] :=
  (finalizeResponse_commit_spec demoTurnState "turn-2" "T1"
    (by decide) (by decide)).2.1 (by decide)

/-- C10: an error event leaves all four turn buffers untouched, and the
buffered fragments are committed by the next playback_finished. -/
theorem error_preserves_turn_buffers (s : ClientState) (m id time : String)
    (hT : s.accumulatedTranscript = "" → s.currentTranscript = "")
    (hR : s.accumulatedResponse = "" → s.currentResponse = "")
    (hne : ¬(s.accumulatedTranscript = "" ∧ s.accumulatedResponse = "")) :
    (wsOnMessage s (.error m)).accumulatedTranscript =
      s.accumulatedTranscript ∧
    (wsOnMessage s (.error m)).currentTranscript = s.currentTranscript ∧
    (wsOnMessage s (.error m)).accumulatedResponse = s.accumulatedResponse ∧
    (wsOnMessage s (.error m)).currentResponse = s.currentResponse ∧
    (runEvents s [InEvent.error m,
        InEvent.playbackFinished id time]).chatHistory =
      s.chatHistory ++
        [⟨id, s.accumulatedTranscript, s.accumulatedResponse, time⟩] := by
  refine ⟨rfl, rfl, rfl, rfl, ?_⟩
  show (finalizeResponse id time
    { wsOnMessage s (.error m) with
        isAssistantSpeaking := false,
        isAssistantSpeakingRef := false }).chatHistory = _
  rw [finalize_chatHistory]
  by_cases hA : s.accumulatedTranscript = "" <;>
    by_cases hB : s.accumulatedResponse = ""
  · exact absurd ⟨hA, hB⟩ hne
  · simp [wsOnMessage, hA, hB, hT hA]
  · simp [wsOnMessage, hA, hB, hR hB]
  · simp [wsOnMessage, hA, hB]

/-- C10 witness: buffers survive an error and are committed afterwards. -/
theorem error_preserves_turn_buffers_witness :
    (runEvents demoTurnState [InEvent.error "boom",
        InEvent.playbackFinished "turn-3" "T2"]).chatHistory =
      demoTurnState.chatHistory ++
        [⟨"turn-3", demoTurnState.accumulatedTranscript,
          demoTurnState.accumulatedResponse, "T2"⟩] :=
  (error_preserves_turn_buffers demoTurnState "boom" "turn-3" "T2"
    (by decide) (by decide) (by decide)).2.2.2.2

/-- C5 counterexample: with the channel open, two successive stop calls send
two end_session messages, because stop never closes the websocket. -/
theorem stop_twice_sends_two_end_session :
    ((handleRecordingStop demoRecState).2.sent ++
      (handleRecordingStop (handleRecordingStop demoRecState).1).2.sent) =
      [OutMsg.endSession, OutMsg.endSession] ∧
    ¬((handleRecordingStop demoRecState).2.sent ++
      (handleRecordingStop (handleRecordingStop demoRecState).1).2.sent).length
        ≤ 1 := by
  decide

/-- C5 (amended): the second of two successive stop calls releases no device,
detaches nothing further, raises no error and leaves the state exactly as the
first call left it — but, since stop does not close the channel, it sends a
further end_session message whenever the channel is still open. -/
theorem handleRecordingStop_second_call (s : RecState) :
    (handleRecordingStop (handleRecordingStop s).1).1 =
      (handleRecordingStop s).1 ∧
    (handleRecordingStop (handleRecordingStop s).1).2.disconnectedNode =
      false ∧
    (handleRecordingStop (handleRecordingStop s).1).2.closedContext = false ∧
    (handleRecordingStop (handleRecordingStop s).1).2.stoppedTracks = false ∧
    (handleRecordingStop (handleRecordingStop s).1).2.sent =
      (if s.wsOpen then [OutMsg.endSession] else []) := by
  by_cases h : s.wsOpen <;> simp [handleRecordingStop, h]

/-- C8: the start_session message carries a context exactly as the spec
describes it — omitted when every trimmed profile field is empty, otherwise
exactly the non-empty trimmed fields — and the serialized message has a
context key iff some field survives trimming. -/
theorem startSession_context_spec
    (userName userRole userIndustry yearsOfExperience : String) :
    startSessionMessage userName userRole userIndustry yearsOfExperience =
      OutMsg.startSession
        (specStartSessionContext userName userRole userIndustry
          yearsOfExperience) ∧
    ("context" ∈ serializedKeys
        (startSessionMessage userName userRole userIndustry
          yearsOfExperience) ↔
      ¬(userName.trim = "" ∧ userRole.trim = "" ∧ userIndustry.trim = "" ∧
        yearsOfExperience.trim = "")) := by
  by_cases h1 : userName.trim = "" <;> by_cases h2 : userRole.trim = "" <;>
    by_cases h3 : userIndustry.trim = "" <;>
    by_cases h4 : yearsOfExperience.trim = "" <;>
    simp [startSessionMessage, specStartSessionContext, trimmedField,
      serializedKeys, h1, h2, h3, h4]

/-- C1: while the assistant is speaking, the AudioWorklet path sends nothing,
but the ScriptProcessor fallback still sends one audio_chunk per capture
block even with the speaking flag set: five blocks produce five outbound
messages instead of zero. -/
theorem fallback_path_ignores_muting :
    workletFramesSent true true
      (List.replicate 5 ⟨true, [0, 0]⟩) = [] ∧
    (scriptFramesSent true true (List.replicate 5 [0, 0])).length = 5 := by
  decide

/-- C6 counterexample: at sample 1/2 the code stores 16383 (truncation by the
Int16Array store) while the claimed round formula gives 16384. -/
theorem float_to_pcm_not_rounded_counterexample :
    jsFloatTo16 (1/2) = 16383 ∧ claimRoundFloatTo16 (1/2) = 16384 ∧
    jsFloatTo16 (1/2) ≠ claimRoundFloatTo16 (1/2) := by
  have hmin : min (1 : ℚ) (1/2) = 1/2 := min_eq_right (by norm_num)
  have hmax : max (-1 : ℚ) (1/2) = 1/2 := max_eq_right (by norm_num)
  have hneg : ¬((1 : ℚ)/2 < 0) := by norm_num
  have hfloor1 : ⌊((1 : ℚ)/2 * 32767)⌋ = 16383 := by
    rw [Int.floor_eq_iff]
    constructor <;> norm_num
  have hfloor2 : ⌊((1 : ℚ)/2 * 32767 + 1/2)⌋ = 16384 := by
    rw [Int.floor_eq_iff]
    constructor <;> norm_num
  have hpos : (0 : ℚ) ≤ 1/2 * 32767 := by norm_num
  have h1 : jsFloatTo16 (1/2) = 16383 := by
    simp only [jsFloatTo16, hmin, hmax, ratTrunc, toInt16]
    rw [if_neg hneg, if_pos hpos, hfloor1]
    decide
  have h2 : claimRoundFloatTo16 (1/2) = 16384 := by
    simp only [claimRoundFloatTo16]
    rw [if_neg hneg, hfloor2]
    decide
  refine ⟨h1, h2, ?_⟩
  rw [h1, h2]
  decide

/-- C6 (amended): every input sample in [-1, 1] is converted to
trunc-toward-zero of (s < 0 ? s * 32768 : s * 32767), and the result always
lies in the signed 16-bit range. -/
theorem jsFloatTo16_trunc_spec (x : ℚ) (h1 : -1 ≤ x) (h2 : x ≤ 1) :
    jsFloatTo16 x = claimTruncFloatTo16 x ∧
    -32768 ≤ jsFloatTo16 x ∧ jsFloatTo16 x ≤ 32767 := by
  have hclamp : max (-1) (min 1 x) = x := by
    rw [min_eq_right h2, max_eq_right h1]
  set v : ℚ := if x < 0 then x * 32768 else x * 32767 with hv
  have hub : v ≤ 32767 := by
    rw [hv]; split <;> rename_i hx
    · nlinarith
    · nlinarith
  have hlb : -32768 ≤ v := by
    rw [hv]; split <;> rename_i hx
    · nlinarith
    · nlinarith
  have htr_lb : (-32768 : ℤ) ≤ ratTrunc v := by
    unfold ratTrunc; split
    · exact Int.le_floor.mpr (by exact_mod_cast hlb)
    · have h' : ((-32768 : ℤ) : ℚ) ≤ (⌈v⌉ : ℚ) :=
        le_trans (by exact_mod_cast hlb) (Int.le_ceil v)
      exact_mod_cast h'
  have htr_ub : ratTrunc v ≤ 32767 := by
    unfold ratTrunc; split
    · have h' : (⌊v⌋ : ℚ) ≤ ((32767 : ℤ) : ℚ) :=
        le_trans (Int.floor_le v) (by exact_mod_cast hub)
      exact_mod_cast h'
    · exact Int.ceil_le.mpr (by exact_mod_cast hub)
  have hmain : jsFloatTo16 x = ratTrunc v := by
    simp only [jsFloatTo16, hclamp, ← hv]
    exact toInt16_eq_self _ htr_lb htr_ub
  have hclaim : claimTruncFloatTo16 x = ratTrunc v := by
    simp only [claimTruncFloatTo16, ← hv]
    rw [min_eq_right htr_ub, max_eq_right htr_lb]
  exact ⟨hmain.trans hclaim.symm, by rw [hmain]; exact htr_lb,
    by rw [hmain]; exact htr_ub⟩

/-- C6 witness: the amended law at the concrete sample 1/2. -/
theorem jsFloatTo16_trunc_spec_witness :
    -1 ≤ (1/2 : ℚ) ∧ (1/2 : ℚ) ≤ 1 ∧
    (jsFloatTo16 (1/2) = claimTruncFloatTo16 (1/2) ∧
     -32768 ≤ jsFloatTo16 (1/2) ∧ jsFloatTo16 (1/2) ≤ 32767) :=
  ⟨by norm_num, by norm_num,
    jsFloatTo16_trunc_spec (1/2) (by norm_num) (by norm_num)⟩

/-- A frame whose decode fails contributes nothing to the drain. -/
theorem playNextAudioChunk_cons_none (c now : ℚ) (b : String)
    (rest : List (ℚ × String)) (h : decodeFrame b = none) :
    playNextAudioChunk c ((now, b) :: rest) = playNextAudioChunk c rest := by
  simp [playNextAudioChunk, h]

/-- A decodable frame is scheduled at max(now, cursor) and advances the
cursor by its duration before the rest of the queue is drained. -/
theorem playNextAudioChunk_cons_some (c now : ℚ) (b : String)
    (rest : List (ℚ × String)) (xs : List ℚ) (h : decodeFrame b = some xs) :
    playNextAudioChunk c ((now, b) :: rest) =
      ((⟨max now c, (xs.length : ℚ) / 24000⟩ : SchedFrame) ::
        (playNextAudioChunk (max now c + (xs.length : ℚ) / 24000) rest).1,
       (playNextAudioChunk (max now c + (xs.length : ℚ) / 24000) rest).2) := by
  simp [playNextAudioChunk, h]

/-- C4: over any drain run the cursor never decreases, every scheduled frame
starts no earlier than the initial cursor and ends no later than the final
cursor, consecutive frames never overlap, and the schedule lists exactly the
decodable frames in FIFO order. -/
theorem playback_drain_spec (c : ℚ) (q : List (ℚ × String)) :
    c ≤ drainCursor c q ∧
    (∀ f ∈ drainFrames c q,
      c ≤ f.startTime ∧ f.startTime + f.duration ≤ drainCursor c q) ∧
    List.Chain' (fun f g => f.startTime + f.duration ≤ g.startTime)
      (drainFrames c q) ∧
    (drainFrames c q).map SchedFrame.duration =
      q.filterMap (fun p => (decodeFrame p.2).map
        (fun xs => ((xs.length : ℚ) / 24000))) := by
  induction q generalizing c with
  | nil =>
      refine ⟨le_refl c, ?_, ?_, ?_⟩ <;>
        simp [drainFrames, drainCursor, playNextAudioChunk]
  | cons p rest ih =>
      obtain ⟨now, b⟩ := p
      cases hdec : decodeFrame b with
      | none =>
          have h := ih c
          simp only [drainFrames, drainCursor,
            playNextAudioChunk_cons_none c now b rest hdec] at h ⊢
          simpa [hdec] using h
      | some xs =>
          have hrw := playNextAudioChunk_cons_some c now b rest xs hdec
          set st := max now c with hst
          set d := ((xs.length : ℚ) / 24000) with hdd
          have hd0 : 0 ≤ d := by rw [hdd]; positivity
          have hcst : c ≤ st := le_max_right now c
          obtain ⟨hcur, hmem, hch, hmap⟩ := ih (st + d)
          simp only [drainFrames, drainCursor] at hcur hmem hch hmap ⊢
          rw [hrw]
          refine ⟨?_, ?_, ?_, ?_⟩
          · exact le_trans (le_trans hcst (le_add_of_nonneg_right hd0)) hcur
          · intro f hf
            rcases List.mem_cons.mp hf with hf | hf
            · subst hf
              exact ⟨hcst, hcur⟩
            · obtain ⟨hf1, hf2⟩ := hmem f hf
              exact ⟨le_trans (le_trans hcst (le_add_of_nonneg_right hd0)) hf1,
                hf2⟩
          · rw [List.chain'_cons']
            refine ⟨?_, hch⟩
            intro y hy
            exact (hmem y (List.mem_of_mem_head? hy)).1
          · simp [hdec, hmap]

/-- C4 witness: the drain contract at a concrete one-frame queue. -/
theorem playback_drain_spec_witness :
    (0 : ℚ) ≤ drainCursor 0 [((0 : ℚ), "AAA=")] ∧
    (∀ f ∈ drainFrames 0 [((0 : ℚ), "AAA=")],
      (0 : ℚ) ≤ f.startTime ∧
        f.startTime + f.duration ≤ drainCursor 0 [((0 : ℚ), "AAA=")]) ∧
    List.Chain' (fun f g => f.startTime + f.duration ≤ g.startTime)
      (drainFrames 0 [((0 : ℚ), "AAA=")]) ∧
    (drainFrames 0 [((0 : ℚ), "AAA=")]).map SchedFrame.duration =
      [((0 : ℚ), "AAA=")].filterMap (fun p => (decodeFrame p.2).map
        (fun xs => ((xs.length : ℚ) / 24000))) :=
  playback_drain_spec 0 [((0 : ℚ), "AAA=")]

/-- C7: a queued frame whose decode fails is skipped, and the drain of the
whole queue proceeds exactly as if that frame were absent — every remaining
frame is still decoded and scheduled. -/
theorem decode_failure_skipped (c : ℚ) (pre post : List (ℚ × String))
    (now : ℚ) (bad : String) (h : decodeFrame bad = none) :
    playNextAudioChunk c (pre ++ (now, bad) :: post) =
      playNextAudioChunk c (pre ++ post) := by
  induction pre generalizing c with
  | nil => simpa using playNextAudioChunk_cons_none c now bad post h
  | cons p pre ih =>
      obtain ⟨n0, b0⟩ := p
      cases hdec : decodeFrame b0 with
      | none =>
          rw [List.cons_append, List.cons_append,
            playNextAudioChunk_cons_none _ _ _ _ hdec,
            playNextAudioChunk_cons_none _ _ _ _ hdec]
          exact ih c
      | some xs =>
          rw [List.cons_append, List.cons_append,
            playNextAudioChunk_cons_some _ _ _ _ _ hdec,
            playNextAudioChunk_cons_some _ _ _ _ _ hdec, ih]

/-- C7 witness: an invalid base64 frame between two valid frames is skipped
and the rest of the queue still plays. -/
theorem decode_failure_skipped_witness :
    decodeFrame "!" = none ∧
    playNextAudioChunk 0
        ([((0 : ℚ), "AAA=")] ++ ((0 : ℚ), "!") :: [((0 : ℚ), "AAA=")]) =
      playNextAudioChunk 0 ([((0 : ℚ), "AAA=")] ++ [((0 : ℚ), "AAA=")]) :=
  ⟨by decide,
    decode_failure_skipped 0 [((0 : ℚ), "AAA=")] [((0 : ℚ), "AAA=")] 0 "!"
      (by decide)⟩
